import Mathlib

/-!
Verification of the Friday permission-gating engine and audit trail
(`src/core/permission_manager.py` and `src/core/logger.py`), via a shallow
embedding in Lean 4.

Conventions of the embedding:
* Python strings are Lean `String`s; Python's `str.lower` is modelled
  character-wise by `pyLower` (ASCII case folding, which covers every
  pattern the program manipulates), `str.strip` by `pyStrip`, and the
  substring operator `in` by `pyIn`.
* `fnmatch.fnmatch` (on a case-sensitive platform) is modelled by
  `globMatch`: `*` and `?` wildcards and `[...]` character classes with
  `!` negation, `a-b` ranges and CPython's closing-bracket lookahead (an
  unterminated `[` is literal).  It is defined through a fuel-indexed
  recursion (`globMatchF`, the fuel strictly dominates the combined
  length of string and pattern, so it is never exhausted) to keep every
  definition kernel-computable.
* The JSONL audit file is a list of physical lines, `LogLine`: a line is
  `valid e` (strips to non-blank text that parses to record `e`),
  `garbled` (blank, or text that fails JSON decoding — the
  `json.JSONDecodeError` path every reader catches and skips), or
  `malformed raw` (text `raw` that decodes as JSON but is not a valid
  record, so `AuditEntry.from_json`'s `cls(**data)` raises an uncaught
  `TypeError`).  Readers therefore return `Option`: `none` models the
  uncaught exception aborting the whole call.  A missing file is `none`
  in `Store`.
* `datetime.now().isoformat()` is threaded as an explicit timestamp
  argument `ts`; interactive `input()` is threaded as an explicit
  `cliResponse` argument (an EOF/interrupt is the caller passing "n",
  exactly the fallback the code installs).
-/

namespace Friday

/-- Scan for the first unconsumed `]`, splitting a character-class body
from the rest of the pattern; `none` when no `]` follows (an unterminated
class). -/
def scanClass : List Char → Option (List Char × List Char)
  | [] => none
  | c :: rest =>
    if c = ']' then some ([], rest)
    else
      match scanClass rest with
      | none => none
      | some (body, r) => some (c :: body, r)

/-- CPython's lookahead when scanning a character class body: a leading
`!` and a `]` directly after it belong to the body rather than closing
the class. -/
def classStart : List Char → Nat
  | '!' :: ']' :: _ => 2
  | '!' :: _ => 1
  | ']' :: _ => 1
  | _ => 0

/-- CPython's `fnmatch.translate` scan of a character class starting just
after `[`: skip the `classStart` prefix, then everything up to the next
`]` is the body.  Returns the body and the pattern after the closing
bracket, or `none` when the class is unterminated. -/
def splitClass (ps : List Char) : Option (List Char × List Char) :=
  match scanClass (ps.drop (classStart ps)) with
  | none => none
  | some (body, rest) => some (ps.take (classStart ps) ++ body, rest)

/-- Membership of a character in a (non-negated) class body: greedy
left-to-right, `a-b` with a character on both sides of the `-` is a
codepoint range (an inverted range matches nothing, exactly as in CPython,
which deletes such ranges), every other character is literal. -/
def classMatch : List Char → Char → Bool
  | [], _ => false
  | a :: '-' :: b :: rest, c => (a ≤ c && c ≤ b) || classMatch rest c
  | a :: rest, c => (a == c) || classMatch rest c

/-- Fuel-indexed worker for `globMatch`; with fuel exceeding
`s.length + p.length` the fuel never runs out (see `globMatchF_stable`). -/
def globMatchF : Nat → List Char → List Char → Bool
  | 0, _, _ => false
  | _ + 1, [], [] => true
  | f + 1, [], p :: ps => p == '*' && globMatchF f [] ps
  | _ + 1, _ :: _, [] => false
  | f + 1, c :: cs, p :: ps =>
    if p == '*' then globMatchF f (c :: cs) ps || globMatchF f cs (p :: ps)
    else if p == '?' then globMatchF f cs ps
    else if p == '[' then
      match splitClass ps with
      | none => c == '[' && globMatchF f cs ps
      | some (body, rest) =>
        (match body with
         | '!' :: body' => !(classMatch body' c)
         | _ => classMatch body c) && globMatchF f cs rest
    else p == c && globMatchF f cs ps

/-- Model of `fnmatch.fnmatch(s, p)` on a case-sensitive platform:
`*` matches any (possibly empty) run of characters, `?` matches any single
character, `[...]` matches one character against a class (a leading `!`
negates; an unterminated `[` is a literal bracket), every other pattern
character matches itself literally. -/
def globMatch (s p : List Char) : Bool :=
  globMatchF (s.length + p.length + 1) s p

/-- `listPre n h` holds when `n` is an initial segment of `h`. -/
def listPre : List Char → List Char → Bool
  | [], _ => true
  | _ :: _, [] => false
  | a :: n, b :: h => a == b && listPre n h

/-- `listSub n h` models Python's substring operator `n in h`:
`n` occurs contiguously inside `h`. -/
def listSub (n : List Char) : List Char → Bool
  | [] => listPre n []
  | b :: h => listPre n (b :: h) || listSub n h

/-- Python's `str.lower`, modelled character-wise. -/
def pyLower (s : String) : String := ⟨s.data.map Char.toLower⟩

/-- Python's `str.strip`: drop whitespace from both ends. -/
def pyStrip (s : String) : String :=
  ⟨((s.data.dropWhile Char.isWhitespace).reverse.dropWhile
      Char.isWhitespace).reverse⟩

/-- Python's `needle in haystack` on strings. -/
def pyIn (needle haystack : String) : Bool := listSub needle.data haystack.data

/-- The `PermissionLevel` enum of `permission_manager.py`. -/
inductive PermissionLevel where
  | READ
  | SUGGEST
  | SAFE_WRITE
  | SYSTEM_WRITE
  | EXECUTE
  | ADMIN
deriving DecidableEq, Repr

/-- The integer value carried by each `PermissionLevel` member. -/
def PermissionLevel.value : PermissionLevel → Nat
  | .READ => 0
  | .SUGGEST => 1
  | .SAFE_WRITE => 2
  | .SYSTEM_WRITE => 3
  | .EXECUTE => 4
  | .ADMIN => 5

/-- The `ActionRequest` dataclass.  `parameters` (a Python
`Optional[Dict[str, Any]]`) is modelled as an ordered association list,
with `[]` standing for both `None` and the empty dict (both falsy). -/
structure ActionRequest where
  action_type : String
  description : String
  target : Option String := none
  parameters : List (String × String) := []
  required_level : PermissionLevel := .READ
deriving DecidableEq, Repr

/-- `ActionRequest.matches_pattern`: glob match of `action_type` against a
pattern. -/
def ActionRequest.matches_pattern (a : ActionRequest) (p : String) : Bool :=
  globMatch a.action_type.data p.data

/-- The `ActionResult` dataclass.  `data` (a Python `Optional[Any]`) is
only ever `None` in this module, modelled as `Option String`. -/
structure ActionResult where
  success : Bool
  status : String
  message : Option String := none
  data : Option String := none
  dry_run : Bool := false
deriving DecidableEq, Repr

/-- The `AuditEntry` dataclass of `logger.py`.  `metadata` values are the
strings / optional strings the permission manager stores there. -/
structure AuditEntry where
  timestamp : String
  action_type : String
  action_description : String
  permission_level : Nat
  user_approved : Option Bool
  status : String
  result : Option String
  metadata : List (String × Option String)
deriving DecidableEq, Repr

/-- One physical line of the JSONL audit file.  `valid e` strips to
non-blank text parsing to the record `e`; `garbled` is a blank line or
text that fails JSON decoding (`json.JSONDecodeError`, which every reader
catches and skips); `malformed raw` is text `raw` that decodes as JSON
but is not a valid record, so `AuditEntry.from_json`'s `cls(**data)`
raises a `TypeError` that no reader catches. -/
inductive LogLine where
  | valid (e : AuditEntry)
  | garbled
  | malformed (raw : String)
deriving DecidableEq, Repr

/-- Whether a line is of the silently-skipped kind. -/
def LogLine.isGarbled : LogLine → Bool
  | .garbled => true
  | _ => false

/-- The audit store: `none` when the log file does not exist, otherwise
the list of its lines in append order. -/
abbrev Store := Option (List LogLine)

/-- `AuditLogger.log`: appending opens the file in mode "a", which creates
it when missing, and writes one line. -/
def logAppend (store : Store) (e : AuditEntry) : Store :=
  some ((store.getD []) ++ [LogLine.valid e])

/-- Sequentially append a batch of entries. -/
def logAppendAll (store : Store) (es : List AuditEntry) : Store :=
  es.foldl logAppend store

/-- The per-line loop body shared by `get_recent`: parse each line in
order, skipping garbled ones; a malformed line raises (`none`). -/
def collectParsed : List LogLine → List AuditEntry → Option (List AuditEntry)
  | [], acc => some acc
  | .valid e :: rest, acc => collectParsed rest (acc ++ [e])
  | .garbled :: rest, acc => collectParsed rest acc
  | .malformed _ :: _, _ => none

/-- `AuditLogger.get_recent`: missing file gives `[]`; otherwise take the
Python slice `lines[-limit:]` of the physical lines (for `limit = 0` the
slice `lines[-0:]` is the whole list), reverse it, and collect the entries
line by line. -/
def get_recent (store : Store) (limit : Nat) : Option (List AuditEntry) :=
  match store with
  | none => some []
  | some lines =>
    let tail := if limit = 0 then lines else lines.drop (lines.length - limit)
    collectParsed tail.reverse []

/-- Scan of `AuditLogger.get_by_date` over the lines, with the date
already rendered as its `YYYY-MM-DD` string.  The source pre-filters each
raw line by `date_str in line` before parsing: for a valid line that test
is implied by (and its result absorbed into) the timestamp prefix check,
for a garbled line both outcomes skip, but for a malformed line it
decides between skipping and raising. -/
def scanByDate (date_str : String) :
    List LogLine → List AuditEntry → Option (List AuditEntry)
  | [], acc => some acc
  | .valid e :: rest, acc =>
    scanByDate date_str rest
      (if e.timestamp.startsWith date_str then acc ++ [e] else acc)
  | .garbled :: rest, acc => scanByDate date_str rest acc
  | .malformed raw :: rest, acc =>
    if pyIn date_str raw then none else scanByDate date_str rest acc

/-- `AuditLogger.get_by_date`. -/
def get_by_date (store : Store) (date_str : String) :
    Option (List AuditEntry) :=
  match store with
  | none => some []
  | some lines => scanByDate date_str lines []

/-- Shared scan of `get_by_action_type` / `get_denied_actions`: walk the
file in order, breaking as soon as `limit` entries are collected; garbled
lines are skipped, a malformed line raises (`none`). -/
def scanLimited (keep : AuditEntry → Bool) (limit : Nat) :
    List LogLine → List AuditEntry → Option (List AuditEntry)
  | [], acc => some acc
  | l :: rest, acc =>
    if limit ≤ acc.length then some acc
    else
      match l with
      | .garbled => scanLimited keep limit rest acc
      | .malformed _ => none
      | .valid e =>
        if keep e then scanLimited keep limit rest (acc ++ [e])
        else scanLimited keep limit rest acc

/-- `AuditLogger.get_by_action_type`. -/
def get_by_action_type (store : Store) (atype : String) (limit : Nat) :
    Option (List AuditEntry) :=
  match store with
  | none => some []
  | some lines => scanLimited (fun e => e.action_type == atype) limit lines []

/-- `AuditLogger.get_denied_actions`. -/
def get_denied_actions (store : Store) (limit : Nat) :
    Option (List AuditEntry) :=
  match store with
  | none => some []
  | some lines => scanLimited (fun e => e.status == "denied") limit lines []

/-- State of a `PermissionManager` instance together with the in-order
contents of its audit logger.  The program only ever appends `AuditEntry`
values through `log_action`, so the manager-side log is kept directly as
a list of entries (the `LogLine` layer matters only for file reads). -/
structure PermissionManager where
  whitelist : List (String × PermissionLevel)
  blacklist : List String
  auto_approve : List String
  approval_callback : Option (String → String → Bool)
  log : List AuditEntry

/-- Python dict assignment `d[k] = v` on an insertion-ordered dict:
updating an existing key keeps its position, a new key goes last. -/
def dictSet (d : List (String × PermissionLevel)) (k : String)
    (v : PermissionLevel) : List (String × PermissionLevel) :=
  if d.any (fun kv => kv.1 == k) then
    d.map (fun kv => if kv.1 == k then (k, v) else kv)
  else d ++ [(k, v)]

/-- `PermissionManager._is_blacklisted`: glob on `action_type`, or the
lowered pattern occurring inside the (truthy) target, or inside the
description. -/
def _is_blacklisted (mgr : PermissionManager) (action : ActionRequest) : Bool :=
  mgr.blacklist.any fun pat =>
    action.matches_pattern pat
    || (match action.target with
        | some t => !(t == "") && pyIn (pyLower pat) (pyLower t)
        | none => false)
    || pyIn (pyLower pat) (pyLower action.description)

/-- `PermissionManager._is_auto_approved`: glob on `action_type` only. -/
def _is_auto_approved (mgr : PermissionManager) (action : ActionRequest) : Bool :=
  mgr.auto_approve.any fun pat => action.matches_pattern pat

/-- `PermissionManager._generate_preview` (`None` renders as the string
"None" inside a Python f-string). -/
def _generate_preview (action : ActionRequest) : String :=
  let tgt := match action.target with
    | some t => t
    | none => "None"
  let first :=
    if action.action_type.startsWith "delete" then
      "⚠️  This will DELETE: " ++ tgt
    else if action.action_type.startsWith "write" then
      "📝 This will WRITE to: " ++ tgt
    else if action.action_type.startsWith "execute" then
      "🖥️  This will EXECUTE: " ++ tgt
    else if action.action_type.startsWith "move" then
      "📦 This will MOVE: " ++ tgt
    else
      "🔧 This will perform: " ++ action.description
  let paramLines := action.parameters.map fun kv => "  - " ++ kv.1 ++ ": " ++ kv.2
  let allLines :=
    if action.parameters.isEmpty then [first]
    else [first, "\nParameters:"] ++ paramLines
  String.intercalate "\n" allLines

/-- The `Pending` entry appended at the top of every `check_permission`
call. -/
def pending_entry (action : ActionRequest) (ts : String) : AuditEntry :=
  { timestamp := ts
    action_type := "permission"
    action_description := "Permission check: " ++ action.description
    permission_level := action.required_level.value
    user_approved := none
    status := "pending"
    result := none
    metadata := [("action_type", some action.action_type), ("target", action.target)] }

/-- The `Denied` entry appended when the blacklist check fires. -/
def blocked_entry (action : ActionRequest) (ts : String) : AuditEntry :=
  { timestamp := ts
    action_type := "permission"
    action_description := "BLOCKED: " ++ action.description
    permission_level := action.required_level.value
    user_approved := some false
    status := "denied"
    result := some "Blacklisted action"
    metadata := [] }

/-- The `Approved` entry appended when the auto-approve check fires. -/
def auto_approved_entry (action : ActionRequest) (ts : String) : AuditEntry :=
  { timestamp := ts
    action_type := "permission"
    action_description := "Auto-approved: " ++ action.description
    permission_level := action.required_level.value
    user_approved := some true
    status := "approved"
    result := some "Auto-approved action"
    metadata := [] }

/-- The entry appended after consulting the approval callback. -/
def user_entry (action : ActionRequest) (ts : String) (approved : Bool)
    (preview : String) : AuditEntry :=
  { timestamp := ts
    action_type := "permission"
    action_description :=
      "User " ++ (if approved then "approved" else "denied") ++ ": "
        ++ action.description
    permission_level := action.required_level.value
    user_approved := some approved
    status := if approved then "approved" else "denied"
    result := none
    metadata := [("preview", some preview)] }

/-- The entry appended after a yes/no CLI response. -/
def cli_entry (action : ActionRequest) (ts : String) (approved : Bool) :
    AuditEntry :=
  { timestamp := ts
    action_type := "permission"
    action_description :=
      "CLI " ++ (if approved then "approved" else "denied") ++ ": "
        ++ action.description
    permission_level := action.required_level.value
    user_approved := some approved
    status := if approved then "approved" else "denied"
    result := none
    metadata := [] }

/-- The `Executed` entry appended by `add_to_whitelist` (note: at the
level passed as argument, not at `ADMIN`). -/
def whitelist_add_entry (pat : String) (level : PermissionLevel)
    (ts : String) : AuditEntry :=
  { timestamp := ts
    action_type := "permission"
    action_description := "Added to whitelist: " ++ pat
    permission_level := level.value
    user_approved := none
    status := "executed"
    result := none
    metadata := [] }

/-- The `Executed` entry appended by `add_to_blacklist`. -/
def blacklist_add_entry (pat : String) (ts : String) : AuditEntry :=
  { timestamp := ts
    action_type := "permission"
    action_description := "Added to blacklist: " ++ pat
    permission_level := PermissionLevel.ADMIN.value
    user_approved := none
    status := "executed"
    result := none
    metadata := [] }

/-- The `Executed` entry appended by `remove_from_blacklist`. -/
def blacklist_remove_entry (pat : String) (ts : String) : AuditEntry :=
  { timestamp := ts
    action_type := "permission"
    action_description := "Removed from blacklist: " ++ pat
    permission_level := PermissionLevel.ADMIN.value
    user_approved := none
    status := "executed"
    result := none
    metadata := [] }

/-- `PermissionManager.add_to_whitelist`. -/
def add_to_whitelist (mgr : PermissionManager) (pat : String)
    (level : PermissionLevel) (ts : String) : PermissionManager :=
  { mgr with
    whitelist := dictSet mgr.whitelist pat level
    log := mgr.log ++ [whitelist_add_entry pat level ts] }

/-- `PermissionManager.add_to_blacklist`: append (and log) only when the
pattern is not already present. -/
def add_to_blacklist (mgr : PermissionManager) (pat : String) (ts : String) :
    PermissionManager :=
  if pat ∈ mgr.blacklist then mgr
  else
    { mgr with
      blacklist := mgr.blacklist ++ [pat]
      log := mgr.log ++ [blacklist_add_entry pat ts] }

/-- `PermissionManager.remove_from_blacklist`: remove the first occurrence
and report whether the pattern was found. -/
def remove_from_blacklist (mgr : PermissionManager) (pat : String)
    (ts : String) : Bool × PermissionManager :=
  if pat ∈ mgr.blacklist then
    (true,
     { mgr with
       blacklist := mgr.blacklist.erase pat
       log := mgr.log ++ [blacklist_remove_entry pat ts] })
  else (false, mgr)

/-- `PermissionManager._cli_approval`: the prompt text itself is console
I/O; the read response arrives as `cliResponse` (EOF / interrupt is the
caller passing "n", the fallback installed by the `except` clause). -/
def _cli_approval (mgr : PermissionManager) (action : ActionRequest)
    (dry_run : Bool) (ts : String) (cliResponse : String) :
    ActionResult × PermissionManager :=
  let response := pyLower (pyStrip cliResponse)
  if response = "never" then
    (⟨false, "BLACKLISTED", some "Action added to blacklist.", none, dry_run⟩,
     add_to_blacklist mgr action.action_type ts)
  else
    let approved := response == "y" || response == "yes"
    (⟨approved,
      if approved then "approved" else "denied",
      some (if approved then "Action approved." else "Action denied."),
      none, dry_run⟩,
     { mgr with log := mgr.log ++ [cli_entry action ts approved] })

/-- `PermissionManager._request_approval`: consult the registered callback
when there is one, otherwise fall back to the CLI prompt. -/
def _request_approval (mgr : PermissionManager) (action : ActionRequest)
    (dry_run : Bool) (ts : String) (cliResponse : String) :
    ActionResult × PermissionManager :=
  match mgr.approval_callback with
  | none => _cli_approval mgr action dry_run ts cliResponse
  | some callback =>
    let preview := _generate_preview action
    let approved := callback action.description preview
    (⟨approved,
      if approved then "approved" else "denied",
      some (if approved then "Action approved by user." else "Action denied by user."),
      none, dry_run⟩,
     { mgr with log := mgr.log ++ [user_entry action ts approved preview] })

/-- `PermissionManager.check_permission`: pending log, then blacklist,
auto-approve, `READ`, `SUGGEST`/dry-run, and finally the approval
workflow. -/
def check_permission (mgr : PermissionManager) (action : ActionRequest)
    (dry_run : Bool) (ts : String) (cliResponse : String) :
    ActionResult × PermissionManager :=
  let log1 := mgr.log ++ [pending_entry action ts]
  if _is_blacklisted mgr action then
    (⟨false, "DENIED",
      some "This action is blacklisted and cannot be executed.",
      none, dry_run⟩,
     { mgr with log := log1 ++ [blocked_entry action ts] })
  else if _is_auto_approved mgr action then
    (⟨true, "APPROVED", some "Action is auto-approved.", none, dry_run⟩,
     { mgr with log := log1 ++ [auto_approved_entry action ts] })
  else if action.required_level = PermissionLevel.READ then
    (⟨true, "APPROVED", some "Read operations are always permitted.",
      none, dry_run⟩,
     { mgr with log := log1 })
  else if action.required_level = PermissionLevel.SUGGEST ∨ dry_run = true then
    (⟨true, "DRY_RUN", some "Dry-run mode - action will be previewed only.",
      none, true⟩,
     { mgr with log := log1 })
  else
    _request_approval { mgr with log := log1 } action dry_run ts cliResponse

/-! ### Helper lemmas -/

/-- `scanClass` consumes at least the closing bracket. -/
theorem scanClass_rest_length :
    ∀ {l body rest : List Char}, scanClass l = some (body, rest) →
      rest.length < l.length := by
  intro l
  induction l with
  | nil => intro body rest h; simp [scanClass] at h
  | cons c cs ih =>
    intro body rest h
    have e1 : (c :: cs).length = cs.length + 1 := rfl
    by_cases hc : c = ']'
    · simp only [scanClass, hc, eq_self_iff_true, if_true] at h
      simp only [Option.some.injEq, Prod.mk.injEq] at h
      rw [← h.2]
      omega
    · simp only [scanClass, hc, if_false] at h
      cases hs : scanClass cs with
      | none => rw [hs] at h; exact absurd h (by simp)
      | some br =>
        obtain ⟨b, r⟩ := br
        rw [hs] at h
        simp only [Option.some.injEq, Prod.mk.injEq] at h
        have h2 := ih hs
        rw [← h.2]
        omega

/-- `splitClass` consumes at least the closing bracket. -/
theorem splitClass_rest_length {ps body rest : List Char}
    (h : splitClass ps = some (body, rest)) : rest.length < ps.length := by
  unfold splitClass at h
  cases hs : scanClass (ps.drop (classStart ps)) with
  | none => rw [hs] at h; exact absurd h (by simp)
  | some br =>
    obtain ⟨b, r⟩ := br
    rw [hs] at h
    simp only [Option.some.injEq, Prod.mk.injEq] at h
    have h1 := scanClass_rest_length hs
    rw [List.length_drop] at h1
    rw [← h.2]
    omega

/-- The fuel of `globMatchF` is irrelevant once it strictly dominates the
combined length of string and pattern. -/
theorem globMatchF_stable (f : Nat) :
    ∀ (g : Nat) (s p : List Char), s.length + p.length < f →
      s.length + p.length < g → globMatchF f s p = globMatchF g s p := by
  induction f with
  | zero => intro g s p hf hg; omega
  | succ f ih =>
    intro g s p hf hg
    cases g with
    | zero => omega
    | succ g =>
      cases s with
      | nil =>
        cases p with
        | nil => rfl
        | cons q ps =>
          have e0 : ([] : List Char).length = 0 := rfl
          have e2 : (q :: ps).length = ps.length + 1 := rfl
          simp only [globMatchF]
          rw [ih g [] ps (by omega) (by omega)]
      | cons c cs =>
        cases p with
        | nil => rfl
        | cons q ps =>
          have e1 : (c :: cs).length = cs.length + 1 := rfl
          have e2 : (q :: ps).length = ps.length + 1 := rfl
          simp only [globMatchF]
          split_ifs with h1 h2 h3
          · rw [ih g (c :: cs) ps (by omega) (by omega),
              ih g cs (q :: ps) (by omega) (by omega)]
          · rw [ih g cs ps (by omega) (by omega)]
          · cases hsp : splitClass ps with
            | none =>
              simp only [hsp]
              rw [ih g cs ps (by omega) (by omega)]
            | some br =>
              obtain ⟨body, rest⟩ := br
              have hr := splitClass_rest_length hsp
              simp only [hsp]
              rw [ih g cs rest (by omega) (by omega)]
          · rw [ih g cs ps (by omega) (by omega)]

/-- Unfolding `globMatch` on an empty string. -/
theorem globMatch_nil_cons (q : Char) (ps : List Char) :
    globMatch [] (q :: ps) = (q == '*' && globMatch [] ps) := by
  have e0 : ([] : List Char).length = 0 := rfl
  unfold globMatch
  simp only [List.length_nil, List.length_cons, globMatchF]
  rw [globMatchF_stable _ (0 + ps.length + 1) [] ps (by omega) (by omega)]

/-- Unfolding `globMatch` on a non-empty string and pattern. -/
theorem globMatch_cons_cons (c q : Char) (cs ps : List Char) :
    globMatch (c :: cs) (q :: ps)
      = (if q == '*' then globMatch (c :: cs) ps || globMatch cs (q :: ps)
         else if q == '?' then globMatch cs ps
         else if q == '[' then
           match splitClass ps with
           | none => c == '[' && globMatch cs ps
           | some (body, rest) =>
             (match body with
              | '!' :: body' => !(classMatch body' c)
              | _ => classMatch body c) && globMatch cs rest
         else q == c && globMatch cs ps) := by
  have e1 : (c :: cs).length = cs.length + 1 := rfl
  have e2 : (q :: ps).length = ps.length + 1 := rfl
  unfold globMatch
  simp only [List.length_cons, globMatchF]
  split_ifs with h1 h2 h3
  · rw [globMatchF_stable _ (cs.length + 1 + ps.length + 1) (c :: cs) ps
      (by omega) (by omega),
      globMatchF_stable _ (cs.length + (ps.length + 1) + 1) cs (q :: ps)
      (by omega) (by omega)]
  · rw [globMatchF_stable _ (cs.length + ps.length + 1) cs ps
      (by omega) (by omega)]
  · cases hsp : splitClass ps with
    | none =>
      simp only [hsp]
      rw [globMatchF_stable _ (cs.length + ps.length + 1) cs ps
        (by omega) (by omega)]
    | some br =>
      obtain ⟨body, rest⟩ := br
      have hr := splitClass_rest_length hsp
      simp only [hsp]
      rw [globMatchF_stable _ (cs.length + rest.length + 1) cs rest
        (by omega) (by omega)]
  · rw [globMatchF_stable _ (cs.length + ps.length + 1) cs ps
      (by omega) (by omega)]

/-- A pattern that matches some string also matches it with a `*`
prepended to the pattern. -/
theorem globMatch_star (s ps : List Char) (h : globMatch s ps = true) :
    globMatch s ('*' :: ps) = true := by
  cases s with
  | nil => rw [globMatch_nil_cons]; simp [h]
  | cons c cs => rw [globMatch_cons_cons]; simp [h]

/-- A string without `[` (so without a character class), read as a glob
pattern, matches itself.  (Not true of strings with a well-formed class:
`fnmatch("[ab]", "[ab]")` is false.) -/
theorem globMatch_self_of_no_bracket (s : List Char) (h : '[' ∉ s) :
    globMatch s s = true := by
  induction s with
  | nil => rfl
  | cons c cs ih =>
    have hc : c ≠ '[' := fun hc => h (hc ▸ List.mem_cons_self c cs)
    have hcs : '[' ∉ cs := fun hm => h (List.mem_cons_of_mem c hm)
    rw [globMatch_cons_cons]
    by_cases h1 : c = '*'
    · subst h1
      simp [globMatch_star cs cs (ih hcs)]
    · by_cases h2 : c = '?'
      · subst h2
        simp [ih hcs]
      · simp [h1, h2, hc, ih hcs]

/-- The empty needle occurs in every haystack. -/
theorem listSub_nil_left (h : List Char) : listSub [] h = true := by
  induction h with
  | nil => rfl
  | cons b h ih => simp [listSub, listPre]

/-- Only the empty needle occurs in the empty haystack. -/
theorem listSub_nil_right (n : List Char) : listSub n [] = true ↔ n = [] := by
  cases n <;> simp [listSub, listPre]

/-- An action whose `action_type` appears in the blacklist and matches
itself as a glob pattern (e.g. because it has no bracket class) is
blacklisted. -/
theorem blacklisted_of_mem (mgr : PermissionManager) (action : ActionRequest)
    (hself : action.matches_pattern action.action_type = true)
    (h : action.action_type ∈ mgr.blacklist) :
    _is_blacklisted mgr action = true := by
  unfold _is_blacklisted
  rw [List.any_eq_true]
  exact ⟨action.action_type, h, by simp [hself]⟩

/-- Appending a batch of entries to an existing file appends the
corresponding valid lines. -/
theorem logAppendAll_some (es : List AuditEntry) (ls : List LogLine) :
    logAppendAll (some ls) es = some (ls ++ es.map LogLine.valid) := by
  induction es generalizing ls with
  | nil => simp [logAppendAll]
  | cons e es ih =>
    simp only [logAppendAll, List.foldl_cons] at *
    rw [show logAppend (some ls) e = some (ls ++ [LogLine.valid e]) from rfl, ih]
    simp

/-- Collecting over lines that are all valid succeeds with exactly their
entries appended. -/
theorem collectParsed_map_valid (es : List AuditEntry) :
    ∀ acc, collectParsed (es.map LogLine.valid) acc = some (acc ++ es) := by
  induction es with
  | nil => intro acc; simp [collectParsed]
  | cons e es ih =>
    intro acc
    simp only [List.map_cons, collectParsed, ih (acc ++ [e])]
    simp

/-- A successful collect returns at most one entry per scanned line. -/
theorem collectParsed_length (lines : List LogLine) :
    ∀ acc res, collectParsed lines acc = some res →
      res.length ≤ acc.length + lines.length := by
  induction lines with
  | nil =>
    intro acc res h
    simp only [collectParsed, Option.some.injEq] at h
    simp [← h]
  | cons l rest ih =>
    intro acc res h
    cases l with
    | valid e =>
      have h2 := ih (acc ++ [e]) res h
      have e3 : (acc ++ [e]).length = acc.length + 1 := by simp
      have e4 : (LogLine.valid e :: rest).length = rest.length + 1 := rfl
      omega
    | garbled =>
      have h2 := ih acc res h
      have e4 : (LogLine.garbled :: rest).length = rest.length + 1 := rfl
      omega
    | malformed raw => simp [collectParsed] at h

/-- Garbled lines at the front of a collect are skipped. -/
theorem collectParsed_garbled_prefix (k : Nat) (rest : List LogLine)
    (acc : List AuditEntry) :
    collectParsed (List.replicate k LogLine.garbled ++ rest) acc
      = collectParsed rest acc := by
  induction k with
  | zero => rfl
  | succ k ih => simp [List.replicate_succ, collectParsed, ih]

/-- A limited scan that has already filled its quota returns
immediately. -/
theorem scanLimited_of_le (keep : AuditEntry → Bool) (limit : Nat)
    (lines : List LogLine) (acc : List AuditEntry)
    (h : limit ≤ acc.length) :
    scanLimited keep limit lines acc = some acc := by
  cases lines <;> simp [scanLimited, h]

/-- Garbled lines are invisible to the limited scans: deleting them from
the file does not change the scan's result. -/
theorem scanLimited_filter_garbled (keep : AuditEntry → Bool) (limit : Nat)
    (lines : List LogLine) (acc : List AuditEntry) :
    scanLimited keep limit (lines.filter fun l => !l.isGarbled) acc
      = scanLimited keep limit lines acc := by
  induction lines generalizing acc with
  | nil => rfl
  | cons l rest ih =>
    cases l with
    | garbled =>
      show scanLimited keep limit (rest.filter fun l => !l.isGarbled) acc
        = scanLimited keep limit (.garbled :: rest) acc
      rw [ih]
      by_cases h : limit ≤ acc.length
      · rw [scanLimited_of_le _ _ _ _ h]
        simp [scanLimited, h]
      · simp [scanLimited, h]
    | valid e =>
      show scanLimited keep limit
          (.valid e :: rest.filter fun l => !l.isGarbled) acc
        = scanLimited keep limit (.valid e :: rest) acc
      by_cases h : limit ≤ acc.length
      · simp [scanLimited, h]
      · by_cases hk : keep e = true <;> simp [scanLimited, h, hk, ih]
    | malformed raw =>
      show scanLimited keep limit
          (.malformed raw :: rest.filter fun l => !l.isGarbled) acc
        = scanLimited keep limit (.malformed raw :: rest) acc
      by_cases h : limit ≤ acc.length <;> simp [scanLimited, h]

/-- Garbled lines are invisible to the date scan as well. -/
theorem scanByDate_filter_garbled (d : String) (lines : List LogLine) :
    ∀ acc, scanByDate d (lines.filter fun l => !l.isGarbled) acc
      = scanByDate d lines acc := by
  induction lines with
  | nil => intro acc; rfl
  | cons l rest ih =>
    intro acc
    cases l with
    | garbled =>
      show scanByDate d (rest.filter fun l => !l.isGarbled) acc
        = scanByDate d (.garbled :: rest) acc
      rw [ih]
      simp [scanByDate]
    | valid e =>
      show scanByDate d (.valid e :: rest.filter fun l => !l.isGarbled) acc
        = scanByDate d (.valid e :: rest) acc
      simp only [scanByDate]
      exact ih _
    | malformed raw =>
      show scanByDate d (.malformed raw :: rest.filter fun l => !l.isGarbled) acc
        = scanByDate d (.malformed raw :: rest) acc
      simp only [scanByDate]
      by_cases h : pyIn d raw = true
      · simp [h]
      · simp [h, ih]

/-! ### Claim theorems -/

/-- C1: for every `ActionRequest` whose `action_type` matches some
blacklist pattern, `check_permission` returns `success = false` with
status `DENIED`, for every `required_level`, every auto-approve list
(so also when the pattern is present in both lists), every dry-run flag
and every approval environment: the deny-list check runs first. -/
theorem blacklist_deny_wins (mgr : PermissionManager) (action : ActionRequest)
    (dry : Bool) (ts resp : String)
    (h : ∃ pat ∈ mgr.blacklist, action.matches_pattern pat = true) :
    (check_permission mgr action dry ts resp).1.success = false
    ∧ (check_permission mgr action dry ts resp).1.status = "DENIED" := by
  have hb : _is_blacklisted mgr action = true := by
    obtain ⟨pat, hp, hm⟩ := h
    unfold _is_blacklisted
    rw [List.any_eq_true]
    exact ⟨pat, hp, by simp [hm]⟩
  simp [check_permission, hb]

/-- C1 witness: a pattern present in both lists, at `ADMIN` level. -/
theorem blacklist_deny_wins_witness :
    (∃ pat ∈ (PermissionManager.mk [] ["format_disk"] ["format_disk"] none []).blacklist,
      (ActionRequest.mk "format_disk" "Format the disk" none [] .ADMIN).matches_pattern pat = true)
    ∧ ((check_permission
          (PermissionManager.mk [] ["format_disk"] ["format_disk"] none [])
          (ActionRequest.mk "format_disk" "Format the disk" none [] .ADMIN)
          false "t0" "n").1.success = false
       ∧ (check_permission
          (PermissionManager.mk [] ["format_disk"] ["format_disk"] none [])
          (ActionRequest.mk "format_disk" "Format the disk" none [] .ADMIN)
          false "t0" "n").1.status = "DENIED") :=
  ⟨⟨"format_disk", by simp, by decide⟩,
   blacklist_deny_wins _ _ false "t0" "n" ⟨"format_disk", by simp, by decide⟩⟩

/-- C2: a request that is not blacklisted and whose `action_type` matches
an auto-approve pattern is approved with status `APPROVED`, and an
`Approved` audit entry is appended, for every `required_level` including
`ADMIN`: the allow-list bypasses level gating and the approval workflow. -/
theorem auto_approve_bypasses_level (mgr : PermissionManager)
    (action : ActionRequest) (dry : Bool) (ts resp : String)
    (hb : _is_blacklisted mgr action = false)
    (ha : ∃ pat ∈ mgr.auto_approve, action.matches_pattern pat = true) :
    (check_permission mgr action dry ts resp).1 =
      ⟨true, "APPROVED", some "Action is auto-approved.", none, dry⟩
    ∧ (check_permission mgr action dry ts resp).2.log =
      mgr.log ++ [pending_entry action ts, auto_approved_entry action ts] := by
  have ha' : _is_auto_approved mgr action = true := by
    obtain ⟨pat, hp, hm⟩ := ha
    unfold _is_auto_approved
    rw [List.any_eq_true]
    exact ⟨pat, hp, hm⟩
  constructor <;> simp [check_permission, hb, ha']

/-- C2 witness: auto-approved action at `ADMIN` level, empty blacklist. -/
theorem auto_approve_bypasses_level_witness :
    _is_blacklisted (PermissionManager.mk [] [] ["read_file"] none [])
      (ActionRequest.mk "read_file" "Read a file" none [] .ADMIN) = false
    ∧ (∃ pat ∈ (PermissionManager.mk [] [] ["read_file"] none []).auto_approve,
        (ActionRequest.mk "read_file" "Read a file" none [] .ADMIN).matches_pattern pat = true)
    ∧ ((check_permission (PermissionManager.mk [] [] ["read_file"] none [])
          (ActionRequest.mk "read_file" "Read a file" none [] .ADMIN)
          false "t0" "n").1 =
        ⟨true, "APPROVED", some "Action is auto-approved.", none, false⟩
       ∧ (check_permission (PermissionManager.mk [] [] ["read_file"] none [])
          (ActionRequest.mk "read_file" "Read a file" none [] .ADMIN)
          false "t0" "n").2.log =
        [] ++ [pending_entry (ActionRequest.mk "read_file" "Read a file" none [] .ADMIN) "t0",
               auto_approved_entry (ActionRequest.mk "read_file" "Read a file" none [] .ADMIN) "t0"]) :=
  ⟨rfl, ⟨"read_file", by simp, by decide⟩,
   auto_approve_bypasses_level _ _ false "t0" "n" rfl
     ⟨"read_file", by simp, by decide⟩⟩

/-- C3: a request is blacklisted exactly when some deny pattern matches
its `action_type` under glob semantics, or occurs case-insensitively
inside its target (when present), or inside its description. -/
theorem blacklisted_iff (mgr : PermissionManager) (action : ActionRequest) :
    _is_blacklisted mgr action = true ↔
      ∃ pat ∈ mgr.blacklist,
        action.matches_pattern pat = true
        ∨ (∃ t, action.target = some t ∧ pyIn (pyLower pat) (pyLower t) = true)
        ∨ pyIn (pyLower pat) (pyLower action.description) = true := by
  unfold _is_blacklisted
  rw [List.any_eq_true]
  constructor
  · rintro ⟨pat, hp, hcond⟩
    refine ⟨pat, hp, ?_⟩
    simp only [Bool.or_eq_true] at hcond
    rcases hcond with (hm | ht) | hd
    · exact Or.inl hm
    · cases htg : action.target with
      | none => rw [htg] at ht; simp at ht
      | some t =>
        rw [htg] at ht
        simp only [Bool.and_eq_true, Bool.not_eq_true'] at ht
        exact Or.inr (Or.inl ⟨t, rfl, ht.2⟩)
    · exact Or.inr (Or.inr hd)
  · rintro ⟨pat, hp, hcond⟩
    refine ⟨pat, hp, ?_⟩
    simp only [Bool.or_eq_true]
    rcases hcond with hm | ⟨t, htg, hin⟩ | hd
    · exact Or.inl (Or.inl hm)
    · by_cases he : t = ""
      · subst he
        have hnil : (pyLower pat).data = [] := by
          have h1 : listSub (pyLower pat).data [] = true := hin
          exact (listSub_nil_right _).mp h1
        refine Or.inr ?_
        show pyIn (pyLower pat) (pyLower action.description) = true
        unfold pyIn
        rw [hnil]
        exact listSub_nil_left _
      · refine Or.inl (Or.inr ?_)
        rw [htg]
        simp [he, hin]
    · exact Or.inr hd

/-- C5: a request matching neither list, above `READ` level, at `SUGGEST`
level or with the dry-run flag set, is approved with status `DRY_RUN`,
and the call's outcome (result and full manager state) is fixed
independently of any approval callback or interactive response: the
approval workflow is never entered. -/
theorem suggest_or_dryrun (mgr : PermissionManager) (action : ActionRequest)
    (dry : Bool) (ts resp : String)
    (hb : _is_blacklisted mgr action = false)
    (ha : _is_auto_approved mgr action = false)
    (hr : action.required_level ≠ PermissionLevel.READ)
    (hs : action.required_level = PermissionLevel.SUGGEST ∨ dry = true) :
    (check_permission mgr action dry ts resp).1 =
      ⟨true, "DRY_RUN", some "Dry-run mode - action will be previewed only.",
       none, true⟩
    ∧ (check_permission mgr action dry ts resp).2 =
      { mgr with log := mgr.log ++ [pending_entry action ts] } := by
  rcases hs with hs | hs
  · constructor <;> simp [check_permission, hb, ha, hr, hs]
  · subst hs
    constructor <;> simp [check_permission, hb, ha, hr]

/-- C5 witness: `SUGGEST`-level request with `dry_run = false`. -/
theorem suggest_or_dryrun_witness :
    _is_blacklisted (PermissionManager.mk [] [] [] none [])
      (ActionRequest.mk "write_file" "Write" none [] .SUGGEST) = false
    ∧ _is_auto_approved (PermissionManager.mk [] [] [] none [])
      (ActionRequest.mk "write_file" "Write" none [] .SUGGEST) = false
    ∧ (ActionRequest.mk "write_file" "Write" none [] .SUGGEST).required_level
        ≠ PermissionLevel.READ
    ∧ ((check_permission (PermissionManager.mk [] [] [] none [])
          (ActionRequest.mk "write_file" "Write" none [] .SUGGEST)
          false "t0" "whatever").1 =
        ⟨true, "DRY_RUN", some "Dry-run mode - action will be previewed only.",
         none, true⟩) :=
  ⟨rfl, rfl, by decide,
   (suggest_or_dryrun (PermissionManager.mk [] [] [] none [])
      (ActionRequest.mk "write_file" "Write" none [] .SUGGEST)
      false "t0" "whatever" rfl rfl (by decide) (Or.inl rfl)).1⟩

/-- C6: every `check_permission` call appends a `Pending` entry directly
after the pre-existing log, before any other entry of that call; every
later entry of the same call has a non-`pending` status, so no decision
entry is recorded without a preceding intent record. -/
theorem pending_logged_first (mgr : PermissionManager) (action : ActionRequest)
    (dry : Bool) (ts resp : String) :
    ∃ rest : List AuditEntry,
      (check_permission mgr action dry ts resp).2.log
        = mgr.log ++ pending_entry action ts :: rest
      ∧ (pending_entry action ts).status = "pending"
      ∧ ∀ e ∈ rest, e.status ≠ "pending" := by
  cases hb : _is_blacklisted mgr action with
  | true =>
    refine ⟨[blocked_entry action ts], ?_, rfl, ?_⟩
    · simp [check_permission, hb]
    · simp [blocked_entry]
  | false =>
    cases ha : _is_auto_approved mgr action with
    | true =>
      refine ⟨[auto_approved_entry action ts], ?_, rfl, ?_⟩
      · simp [check_permission, hb, ha]
      · simp [auto_approved_entry]
    | false =>
      by_cases hr : action.required_level = PermissionLevel.READ
      · exact ⟨[], by simp [check_permission, hb, ha, hr], rfl, by simp⟩
      · by_cases hs : action.required_level = PermissionLevel.SUGGEST ∨ dry = true
        · exact ⟨[], by simp [check_permission, hb, ha, hr, hs], rfl, by simp⟩
        · cases hcb : mgr.approval_callback with
          | some cb =>
            refine ⟨[user_entry action ts
                (cb action.description (_generate_preview action))
                (_generate_preview action)], ?_, rfl, ?_⟩
            · simp [check_permission, hb, ha, hr, hs, _request_approval, hcb]
            · cases cb action.description (_generate_preview action) <;>
                simp [user_entry]
          | none =>
            by_cases hnv : pyLower (pyStrip resp) = "never"
            · by_cases hmem : action.action_type ∈ mgr.blacklist
              · refine ⟨[], ?_, rfl, by simp⟩
                simp [check_permission, hb, ha, hr, hs, _request_approval,
                  hcb, _cli_approval, hnv, add_to_blacklist, hmem]
              · refine ⟨[blacklist_add_entry action.action_type ts], ?_, rfl, ?_⟩
                · simp [check_permission, hb, ha, hr, hs, _request_approval,
                    hcb, _cli_approval, hnv, add_to_blacklist, hmem]
                · simp [blacklist_add_entry]
            · refine ⟨[cli_entry action ts
                  (pyLower (pyStrip resp) == "y" || pyLower (pyStrip resp) == "yes")],
                ?_, rfl, ?_⟩
              · simp [check_permission, hb, ha, hr, hs, _request_approval,
                  hcb, _cli_approval, hnv]
              · cases pyLower (pyStrip resp) == "y" || pyLower (pyStrip resp) == "yes" <;>
                  simp [cli_entry]

/-- C10: a `DRY_RUN` result always carries `dry_run = true`, even when the
caller passed `dry_run = false`; every other result carries the caller's
dry-run flag unchanged. -/
theorem dryrun_flag_matches (mgr : PermissionManager) (action : ActionRequest)
    (dry : Bool) (ts resp : String) :
    ((check_permission mgr action dry ts resp).1.status = "DRY_RUN" →
      (check_permission mgr action dry ts resp).1.dry_run = true)
    ∧ ((check_permission mgr action dry ts resp).1.status ≠ "DRY_RUN" →
      (check_permission mgr action dry ts resp).1.dry_run = dry) := by
  cases hb : _is_blacklisted mgr action with
  | true => simp [check_permission, hb]
  | false =>
    cases ha : _is_auto_approved mgr action with
    | true => simp [check_permission, hb, ha]
    | false =>
      by_cases hr : action.required_level = PermissionLevel.READ
      · simp [check_permission, hb, ha, hr]
      · by_cases hs : action.required_level = PermissionLevel.SUGGEST ∨ dry = true
        · simp [check_permission, hb, ha, hr, hs]
        · cases hcb : mgr.approval_callback with
          | some cb =>
            cases hap : cb action.description (_generate_preview action) <;>
              simp [check_permission, hb, ha, hr, hs, _request_approval, hcb, hap]
          | none =>
            by_cases hnv : pyLower (pyStrip resp) = "never"
            · simp [check_permission, hb, ha, hr, hs, _request_approval, hcb,
                _cli_approval, hnv]
            · cases happr : pyLower (pyStrip resp) == "y" || pyLower (pyStrip resp) == "yes" <;>
                simp [check_permission, hb, ha, hr, hs, _request_approval, hcb,
                  _cli_approval, hnv, happr]

/-- C10 witness: a `SUGGEST`-level request with `dry_run = false` yields a
`DRY_RUN` result whose `dry_run` field is `true`. -/
theorem dryrun_flag_matches_witness :
    (check_permission (PermissionManager.mk [] [] [] none [])
        (ActionRequest.mk "write_file" "Write" none [] .SUGGEST)
        false "t0" "n").1.status = "DRY_RUN"
    ∧ (check_permission (PermissionManager.mk [] [] [] none [])
        (ActionRequest.mk "write_file" "Write" none [] .SUGGEST)
        false "t0" "n").1.dry_run = true :=
  ⟨rfl,
   (dryrun_flag_matches (PermissionManager.mk [] [] [] none [])
      (ActionRequest.mk "write_file" "Write" none [] .SUGGEST)
      false "t0" "n").1 rfl⟩

/-- C4 counterexample: the claim promises that after a "never" response
every subsequent identical check is denied, but for a request whose
`action_type` contains a character class — here "[ab]", which as an
fnmatch pattern matches only the single characters a and b, not the
string "[ab]" itself — the appended deny-list entry never glob-matches
the action, and no substring of target or description matches either: the
first call does return `BLACKLISTED` and appends "[ab]" to the deny-list,
yet the repeated identical call re-enters the approval workflow and a
"yes" response approves it. -/
theorem never_response_counterexample :
    ((check_permission (PermissionManager.mk [] [] [] none [])
        (ActionRequest.mk "[ab]" "Write" none [] .SAFE_WRITE)
        false "t0" "never").1.status = "BLACKLISTED"
     ∧ (check_permission (PermissionManager.mk [] [] [] none [])
        (ActionRequest.mk "[ab]" "Write" none [] .SAFE_WRITE)
        false "t0" "never").2.blacklist = ["[ab]"])
    ∧ (check_permission
          (check_permission (PermissionManager.mk [] [] [] none [])
            (ActionRequest.mk "[ab]" "Write" none [] .SAFE_WRITE)
            false "t0" "never").2
          (ActionRequest.mk "[ab]" "Write" none [] .SAFE_WRITE)
          false "t1" "yes").1.success = true
    ∧ (check_permission
          (check_permission (PermissionManager.mk [] [] [] none [])
            (ActionRequest.mk "[ab]" "Write" none [] .SAFE_WRITE)
            false "t0" "never").2
          (ActionRequest.mk "[ab]" "Write" none [] .SAFE_WRITE)
          false "t1" "yes").1.status ≠ "DENIED" := by decide

/-- C4 (amended with a self-match proviso): with no approval callback
registered, a request that enters the approval workflow and receives an
interactive response whose stripped-and-lowered form is "never" is
rejected with the distinct `BLACKLISTED` status, its `action_type` is
appended to the deny-list, and the allow-list is unchanged; provided the
`action_type`, used as a glob pattern, matches itself (true of every
`action_type` without a bracket character class, such as ordinary names
like "write_file"), every subsequent check of the same request is denied
with status `DENIED`. -/
theorem never_response_blacklists (mgr : PermissionManager)
    (action : ActionRequest) (ts resp : String)
    (hcb : mgr.approval_callback = none)
    (hself : action.matches_pattern action.action_type = true)
    (hb : _is_blacklisted mgr action = false)
    (ha : _is_auto_approved mgr action = false)
    (hr : action.required_level ≠ PermissionLevel.READ)
    (hs : action.required_level ≠ PermissionLevel.SUGGEST)
    (hresp : pyLower (pyStrip resp) = "never") :
    (check_permission mgr action false ts resp).1.success = false
    ∧ (check_permission mgr action false ts resp).1.status = "BLACKLISTED"
    ∧ (check_permission mgr action false ts resp).2.blacklist
        = mgr.blacklist ++ [action.action_type]
    ∧ (check_permission mgr action false ts resp).2.auto_approve
        = mgr.auto_approve
    ∧ ∀ dry2 ts2 resp2,
        (check_permission (check_permission mgr action false ts resp).2
            action dry2 ts2 resp2).1.success = false
        ∧ (check_permission (check_permission mgr action false ts resp).2
            action dry2 ts2 resp2).1.status = "DENIED" := by
  have hmem : action.action_type ∉ mgr.blacklist := by
    intro hm
    rw [blacklisted_of_mem mgr action hself hm] at hb
    exact Bool.noConfusion hb
  have hs' : ¬(action.required_level = PermissionLevel.SUGGEST
      ∨ false = true) := by simp [hs]
  have key : check_permission mgr action false ts resp =
      (⟨false, "BLACKLISTED", some "Action added to blacklist.", none, false⟩,
       { mgr with
         blacklist := mgr.blacklist ++ [action.action_type]
         log := mgr.log ++ [pending_entry action ts,
                 blacklist_add_entry action.action_type ts] }) := by
    simp [check_permission, hb, ha, hr, hs, hs', _request_approval, hcb,
      _cli_approval, hresp, add_to_blacklist, hmem]
  rw [key]
  refine ⟨rfl, rfl, rfl, rfl, ?_⟩
  intro dry2 ts2 resp2
  have hb2 : _is_blacklisted
      { mgr with
        blacklist := mgr.blacklist ++ [action.action_type]
        log := mgr.log ++ [pending_entry action ts,
                blacklist_add_entry action.action_type ts] } action = true :=
    blacklisted_of_mem _ _ hself (by simp)
  constructor <;> simp [check_permission, hb2]

/-- C4 witness: a `SAFE_WRITE` request answered " NEVER " (exercising the
strip, the case fold, and a self-matching `action_type`). -/
theorem never_response_blacklists_witness :
    (PermissionManager.mk [] [] [] none []).approval_callback = none
    ∧ (ActionRequest.mk "write_file" "Write" none [] .SAFE_WRITE).matches_pattern
        (ActionRequest.mk "write_file" "Write" none [] .SAFE_WRITE).action_type
        = true
    ∧ _is_blacklisted (PermissionManager.mk [] [] [] none [])
        (ActionRequest.mk "write_file" "Write" none [] .SAFE_WRITE) = false
    ∧ _is_auto_approved (PermissionManager.mk [] [] [] none [])
        (ActionRequest.mk "write_file" "Write" none [] .SAFE_WRITE) = false
    ∧ (ActionRequest.mk "write_file" "Write" none [] .SAFE_WRITE).required_level
        ≠ PermissionLevel.READ
    ∧ (ActionRequest.mk "write_file" "Write" none [] .SAFE_WRITE).required_level
        ≠ PermissionLevel.SUGGEST
    ∧ pyLower (pyStrip " NEVER ") = "never"
    ∧ ((check_permission (PermissionManager.mk [] [] [] none [])
          (ActionRequest.mk "write_file" "Write" none [] .SAFE_WRITE)
          false "t0" " NEVER ").1.status = "BLACKLISTED"
       ∧ (check_permission (PermissionManager.mk [] [] [] none [])
          (ActionRequest.mk "write_file" "Write" none [] .SAFE_WRITE)
          false "t0" " NEVER ").2.blacklist = [] ++ ["write_file"]
       ∧ (check_permission
            (check_permission (PermissionManager.mk [] [] [] none [])
              (ActionRequest.mk "write_file" "Write" none [] .SAFE_WRITE)
              false "t0" " NEVER ").2
            (ActionRequest.mk "write_file" "Write" none [] .SAFE_WRITE)
            false "t1" "yes").1.status = "DENIED") :=
  have h := never_response_blacklists (PermissionManager.mk [] [] [] none [])
    (ActionRequest.mk "write_file" "Write" none [] .SAFE_WRITE)
    "t0" " NEVER " rfl (by decide) rfl rfl (by decide) (by decide) (by decide)
  ⟨rfl, by decide, rfl, rfl, by decide, by decide, by decide,
   h.2.1, h.2.2.1, (h.2.2.2.2 false "t1" "yes").2⟩

/-- C7 counterexample: the claim "`get_recent` returns at most `n` entries
for every limit `n`" fails at `n = 0`: on a one-line store, the Python
slice `lines[-0:]` is the whole file, so one entry is returned. -/
theorem get_recent_limit_zero_counterexample :
    ¬ (((get_recent
        (some [LogLine.valid
          (AuditEntry.mk "t" "permission" "d" 0 none "pending" none [])]) 0).getD
        []).length ≤ 0) := by decide

/-- C7 (amended to limits `n ≥ 1`): a successful `get_recent` returns at
most `n` entries, and after appending a batch of entries to an initially
empty store, `get_recent n` succeeds with exactly the last `min n total`
entries appended, most recent first (so 150 appends followed by
`get_recent 100` give the last 100 in reverse-append order). -/
theorem get_recent_bounded :
    (∀ (store : Store) (n : Nat), 1 ≤ n →
        ((get_recent store n).getD []).length ≤ n)
    ∧ (∀ (es : List AuditEntry) (n : Nat), 1 ≤ n →
        get_recent (logAppendAll (some []) es) n
          = some (es.drop (es.length - n)).reverse) := by
  constructor
  · intro store n hn
    cases store with
    | none => simp [get_recent]
    | some lines =>
      have hn0 : ¬(n = 0) := by omega
      simp only [get_recent, if_neg hn0]
      cases hc : collectParsed (lines.drop (lines.length - n)).reverse [] with
      | none => simp
      | some res =>
        have h1 := collectParsed_length _ _ _ hc
        have h2 : (lines.drop (lines.length - n)).reverse.length ≤ n := by
          rw [List.length_reverse, List.length_drop]; omega
        have e0 : ([] : List AuditEntry).length = 0 := rfl
        simp only [Option.getD_some]
        omega
  · intro es n hn
    rw [logAppendAll_some es [], List.nil_append]
    have hn0 : ¬(n = 0) := by omega
    simp only [get_recent, if_neg hn0, List.length_map]
    rw [← List.map_drop, ← List.map_reverse, collectParsed_map_valid]
    simp

/-- C7 witness: 150 entries appended sequentially, then `get_recent 100`
succeeds with the last 100 in reverse-append order. -/
theorem get_recent_bounded_witness :
    (1 ≤ 100)
    ∧ get_recent
        (logAppendAll (some [])
          (List.replicate 150
            (AuditEntry.mk "t" "permission" "d" 0 none "pending" none [])))
        100
      = some ((List.replicate 150
            (AuditEntry.mk "t" "permission" "d" 0 none "pending" none [])).drop
          ((List.replicate 150
            (AuditEntry.mk "t" "permission" "d" 0 none "pending" none [])).length
            - 100)).reverse :=
  ⟨by decide,
   get_recent_bounded.2
     (List.replicate 150
       (AuditEntry.mk "t" "permission" "d" 0 none "pending" none []))
     100 (by decide)⟩

/-- C8 counterexample: a trailing line of valid JSON that is not a record
(here the line "2": `json.loads` succeeds, so `json.JSONDecodeError` is
not raised, and `cls(**data)` then raises an uncaught `TypeError`) aborts
`get_recent` and `get_by_action_type`, so the valid entry before it is
not retrievable through those calls — deleting the malformed line makes
the same `get_recent` call succeed with that entry. -/
theorem malformed_line_aborts_counterexample :
    get_recent
        (some [LogLine.valid
            (AuditEntry.mk "t" "permission" "d" 0 none "pending" none []),
          LogLine.malformed "2"]) 2 = none
    ∧ get_by_action_type
        (some [LogLine.valid
            (AuditEntry.mk "t" "permission" "d" 0 none "pending" none []),
          LogLine.malformed "2"]) "permission" 10 = none
    ∧ get_recent
        (some [LogLine.valid
            (AuditEntry.mk "t" "permission" "d" 0 none "pending" none [])]) 2
      = some [AuditEntry.mk "t" "permission" "d" 0 none "pending" none []] := by
  decide

/-- C8 (amended): reads on a missing store return empty results; blank or
JSON-undecodable (garbled) lines are skipped by every read and never make
a call fail — deleting them changes no result of the scanning reads, and
trailing garbled lines never hide the valid entries before them from
`get_recent` — but a line that decodes as JSON without being a valid
record raises an uncaught `TypeError` that aborts the whole call (shown
for a trailing malformed line under `get_recent`). -/
theorem scan_robustness :
    ((∀ n, get_recent none n = some [])
      ∧ (∀ d, get_by_date none d = some [])
      ∧ (∀ t n, get_by_action_type none t n = some [])
      ∧ (∀ n, get_denied_actions none n = some []))
    ∧ (∀ (es : List AuditEntry) (k : Nat),
        get_recent (some (es.map LogLine.valid
            ++ List.replicate k LogLine.garbled)) (es.length + k)
          = some es.reverse)
    ∧ (∀ (lines : List LogLine) (t : String) (n : Nat),
        get_by_action_type (some (lines.filter fun l => !l.isGarbled)) t n
          = get_by_action_type (some lines) t n)
    ∧ (∀ (lines : List LogLine) (n : Nat),
        get_denied_actions (some (lines.filter fun l => !l.isGarbled)) n
          = get_denied_actions (some lines) n)
    ∧ (∀ (lines : List LogLine) (d : String),
        get_by_date (some (lines.filter fun l => !l.isGarbled)) d
          = get_by_date (some lines) d)
    ∧ (∀ (lines : List LogLine) (raw : String),
        get_recent (some (lines ++ [LogLine.malformed raw]))
            (lines.length + 1) = none) := by
  refine ⟨⟨fun n => rfl, fun d => rfl, fun t n => rfl, fun n => rfl⟩,
    ?_, ?_, ?_, ?_, ?_⟩
  · intro es k
    by_cases h0 : es.length + k = 0
    · have hl : es = [] := List.length_eq_zero.mp (by omega)
      have hk : k = 0 := by omega
      subst hl; subst hk; rfl
    · simp only [get_recent, if_neg h0]
      rw [show (es.map LogLine.valid
            ++ List.replicate k LogLine.garbled).length
            - (es.length + k) = 0 by simp]
      rw [List.drop_zero, List.reverse_append, List.reverse_replicate,
        collectParsed_garbled_prefix, ← List.map_reverse,
        collectParsed_map_valid]
      simp
  · intro lines t n
    simp only [get_by_action_type]
    exact scanLimited_filter_garbled _ _ _ _
  · intro lines n
    simp only [get_denied_actions]
    exact scanLimited_filter_garbled _ _ _ _
  · intro lines d
    simp only [get_by_date]
    exact scanByDate_filter_garbled _ _ _
  · intro lines raw
    simp only [get_recent]
    rw [if_neg (by omega : ¬(lines.length + 1 = 0))]
    rw [show (lines ++ [LogLine.malformed raw]).length
          - (lines.length + 1) = 0 by simp]
    rw [List.drop_zero, List.reverse_append]
    simp [collectParsed]

/-- C9 counterexample: the claim says every policy mutation logs its
`Executed` entry at `Admin` level, but `add_to_whitelist` logs at the
level passed as argument: adding at `READ` level produces an executed
entry at level 0, not `ADMIN` (5). -/
theorem whitelist_level_counterexample :
    ((add_to_whitelist (PermissionManager.mk [] [] [] none []) "safe_action"
        PermissionLevel.READ "t0").log.map
      (fun e => (e.status, e.permission_level)))
      = [("executed", 0)]
    ∧ (0 : Nat) ≠ PermissionLevel.ADMIN.value := by decide

/-- C9 (amended: `add_to_whitelist` logs its `Executed` entry at the level
passed as argument, while the blacklist mutations log at `ADMIN`): each
mutation appends its own `Executed` entry; `add_to_blacklist` is
idempotent (a present pattern is neither duplicated nor re-logged); and
`remove_from_blacklist` returns whether the pattern was found. -/
theorem mutation_audit (mgrA : PermissionManager) :
    (∀ (pat : String) (level : PermissionLevel) (ts : String),
        (add_to_whitelist mgrA pat level ts).log
          = mgrA.log ++ [whitelist_add_entry pat level ts]
        ∧ (whitelist_add_entry pat level ts).status = "executed"
        ∧ (whitelist_add_entry pat level ts).permission_level = level.value)
    ∧ (∀ (pat ts : String), pat ∉ mgrA.blacklist →
        (add_to_blacklist mgrA pat ts).blacklist = mgrA.blacklist ++ [pat]
        ∧ (add_to_blacklist mgrA pat ts).log
            = mgrA.log ++ [blacklist_add_entry pat ts]
        ∧ (blacklist_add_entry pat ts).status = "executed"
        ∧ (blacklist_add_entry pat ts).permission_level
            = PermissionLevel.ADMIN.value)
    ∧ (∀ (pat ts : String), pat ∈ mgrA.blacklist →
        add_to_blacklist mgrA pat ts = mgrA)
    ∧ (∀ (pat ts : String), pat ∈ mgrA.blacklist →
        (remove_from_blacklist mgrA pat ts).1 = true
        ∧ (remove_from_blacklist mgrA pat ts).2.blacklist
            = mgrA.blacklist.erase pat
        ∧ (remove_from_blacklist mgrA pat ts).2.log
            = mgrA.log ++ [blacklist_remove_entry pat ts]
        ∧ (blacklist_remove_entry pat ts).status = "executed"
        ∧ (blacklist_remove_entry pat ts).permission_level
            = PermissionLevel.ADMIN.value)
    ∧ (∀ (pat ts : String), pat ∉ mgrA.blacklist →
        remove_from_blacklist mgrA pat ts = (false, mgrA)) := by
  refine ⟨?_, ?_, ?_, ?_, ?_⟩ <;> intros <;>
    simp_all [add_to_whitelist, add_to_blacklist, remove_from_blacklist,
      whitelist_add_entry, blacklist_add_entry, blacklist_remove_entry,
      PermissionLevel.value]

/-- C9 witness: the blacklist mutations applied where their membership
hypotheses hold. -/
theorem mutation_audit_witness :
    ("p" ∉ (PermissionManager.mk [] [] [] none []).blacklist)
    ∧ (add_to_blacklist (PermissionManager.mk [] [] [] none []) "p" "t0").blacklist
        = [] ++ ["p"]
    ∧ ("p" ∈ (PermissionManager.mk [] ["p"] [] none []).blacklist)
    ∧ (remove_from_blacklist (PermissionManager.mk [] ["p"] [] none []) "p" "t0").1
        = true :=
  ⟨by simp,
   ((mutation_audit (PermissionManager.mk [] [] [] none [])).2.1 "p" "t0"
      (by simp)).1,
   by simp,
   ((mutation_audit (PermissionManager.mk [] ["p"] [] none [])).2.2.2.1 "p" "t0"
      (by simp)).1⟩

end Friday
